import Mathlib

/-!
Shallow embedding of `distributed3/worker.py` (class `Worker`): the worker's
local data dictionary, its lifecycle (`__init__`, `_start`, `_close`,
`terminate`) and its RPC handlers (`work`, `get_data`).  Network effects are
made explicit: each handler returns, besides its result, the list of registry
messages it sends to the Center.  The helpers `gather_strict_from_center` and
`keys_to_data` are imported by the source from `client.py`, which is not part
of the sources; they are modelled from the spec (see their doc comments).
-/

namespace Distributed3

/-- Keys are opaque string identifiers. -/
abbrev Key := String

/-- Values held in a worker's local data dictionary.  `exc msg tb` models a
Python exception object stored as a failure record: it carries the exception
message and the formatted traceback attached to the exception. -/
inductive Value where
  | int (n : Int)
  | str (s : String)
  | exc (msg : String) (tb : String)
deriving DecidableEq

/-- A Python `dict` from keys to values, as an association list without
duplicate keys (insertion keeps the position of an existing key). -/
abbrev Dict := List (Key × Value)

/-- `k in d` for a Python dict. -/
def dictContains (d : Dict) (k : Key) : Bool :=
  d.any (fun p => p.1 == k)

/-- `d[k]` for a Python dict, `none` when the key is absent (`KeyError`). -/
def dictLookup (d : Dict) (k : Key) : Option Value :=
  (d.find? (fun p => p.1 == k)).map (fun p => p.2)

/-- `d[k] = v` for a Python dict: overwrite in place, else append. -/
def dictInsert (d : Dict) (k : Key) (v : Value) : Dict :=
  match d with
  | [] => [(k, v)]
  | p :: rest => if p.1 == k then (k, v) :: rest else p :: dictInsert rest k v

/-- `dict(pairs)`: build a dict from a list of pairs, later pairs overwriting
earlier ones. -/
def dictOfPairs (ps : List (Key × Value)) : Dict :=
  ps.foldl (fun d p => dictInsert d p.1 p.2) []

/-- `toolz.merge(a, b)`: the entries of `b` overlaid on `a`, `b` winning. -/
def merge (a b : Dict) : Dict :=
  b.foldl (fun d p => dictInsert d p.1 p.2) a

/-- A registry call sent by the worker to the Center (the `register`,
`unregister` and `add_keys` RPCs) or the peer-fetch request issued for a set
of needed keys (`gather`).  Connection establishment and the transport layer
are not modelled (the spec excludes them from the core). -/
inductive Msg where
  | register (ncores : Nat) (address : String × Nat)
  | unregister (address : String × Nat)
  | addKeys (address : String × Nat) (close : Bool) (keys : List Key)
  | gather (keys : List Key)
deriving DecidableEq

/-- The state of a `Worker` instance: identity, advertised capacity, the
local data dictionary `data` and the lifecycle `status` string
(`none` models Python `None`). -/
structure Worker where
  ip : String
  port : Nat
  center_ip : String
  center_port : Nat
  ncores : Nat
  data : Dict
  status : Option String
deriving DecidableEq

/-- `Worker.__init__`: stores the addresses, applies the `ncores or _ncores`
default (Python `or`: `None` and `0` both fall back to the machine core
count, passed here as `machineNcores`), starts with an empty data dict and,
at the end of the constructor, sets `status` to `'running'`. -/
def Worker.init (ip : String) (port : Nat) (center_ip : String)
    (center_port : Nat) (ncores : Option Nat) (machineNcores : Nat) : Worker :=
  { ip := ip
    port := port
    center_ip := center_ip
    center_port := center_port
    ncores := match ncores with
      | some n => if n == 0 then machineNcores else n
      | none => machineNcores
    data := []
    status := some "running" }

/-- `Worker._start`: sends `register(ncores, address)` to the Center and
asserts that the response is the literal `b'OK'`; any other response raises
an `AssertionError` out of the coroutine.  `registerResp` is the response
the Center gives.  Binding the listener is transport-level and not
modelled. -/
def Worker._start (w : Worker) (registerResp : String) :
    Except String Worker × List Msg :=
  (if registerResp == "OK" then Except.ok w
   else Except.error "AssertionError",
   [Msg.register w.ncores (w.ip, w.port)])

/-- `Worker._close`: sends `unregister(address)` to the Center, stops the
listener (transport-level, not modelled) and sets `status` to `'closed'`. -/
def Worker._close (w : Worker) : Worker × List Msg :=
  ({ w with status := some "closed" }, [Msg.unregister (w.ip, w.port)])

/-- `Worker.terminate` handler: just runs `_close`. -/
def Worker.terminate (w : Worker) : Worker × List Msg :=
  Worker._close w

/-- A Python exception raised by a user function: message and formatted
traceback. -/
structure PyExc where
  msg : String
  tb : String
deriving DecidableEq

/-- An argument to a task: either a key reference to be substituted from the
data view, or a literal value.  Modelled from the spec: the source's `args`
are plain Python objects inspected by `keys_to_data` from `client.py` (not
part of the sources); the spec's design notes say to model key references
"as a tagged reference variant distinguished from literal values". -/
inductive Arg where
  | ref (k : Key)
  | lit (v : Value)
deriving DecidableEq

/-- Modelled from the spec: `keys_to_data` is imported from `client.py`,
which is not part of the sources.  Per the spec it substitutes every key
reference with its resolved value from the effective data view; a reference
to a key absent from the view is left as the key literal. -/
def keys_to_data (a : Arg) (d : Dict) : Value :=
  match a with
  | Arg.ref k => (dictLookup d k).getD (Value.str k)
  | Arg.lit v => v

/-- Modelled from the spec: `gather_strict_from_center` is imported from
`client.py`, which is not part of the sources.  Per the spec the PeerFetcher
resolves each needed key through the Center's registry and pulls the value
from a peer (modelled together as `resolve`), and "must fail the whole fetch
if the Center cannot name a holder for a requested key" — the strict gather
fails loudly on the first unresolvable key.  It returns the values aligned
with the requested key list. -/
def gather_strict_from_center (resolve : Key → Option Value) :
    List Key → Except String (List Value)
  | [] => Except.ok []
  | k :: rest =>
    match resolve k with
    | none => Except.error ("Could not find dependency " ++ k)
    | some v => (gather_strict_from_center resolve rest).map (fun vs => v :: vs)

/-- Line 112 of `worker.py`: `needed = [n for n in needed if n not in
self.data]` — the needed keys not already held locally (duplicates are kept
by the comprehension). -/
def fetchList (w : Worker) (needed : List Key) : List Key :=
  needed.filter (fun n => !(dictContains w.data n))

/-- Lines 115–120 of `worker.py`: if the filtered `needed` list is non-empty,
gather the values from peers and overlay them on the local data
(`merge(self.data, dict(zip(needed, other)))`); otherwise the fetch is
skipped and the view is the local data itself. -/
def fetchResult (w : Worker) (resolve : Key → Option Value)
    (needed2 : List Key) : Except String Dict :=
  if needed2.isEmpty then Except.ok w.data
  else (gather_strict_from_center resolve needed2).map
    (fun other => merge w.data (dictOfPairs (needed2.zip other)))

instance (a b : Except String String) : Decidable (a = b) :=
  match a, b with
  | Except.ok x, Except.ok y =>
    if h : x = y then isTrue (by rw [h]) else
      isFalse (fun hc => h (by injection hc))
  | Except.ok _, Except.error _ => isFalse (fun hc => by injection hc)
  | Except.error _, Except.ok _ => isFalse (fun hc => by injection hc)
  | Except.error x, Except.error y =>
    if h : x = y then isTrue (by rw [h]) else
      isFalse (fun hc => h (by injection hc))

/-- The observable outcome of one `compute` (`Worker.work`) call: the
post-state of the worker, the registry/fetch messages sent, the log lines
about report failures, and the handler's response — `Except.ok` is a value
returned to the RPC caller, `Except.error` an exception escaping the
handler. -/
structure WorkOutcome where
  worker : Worker
  msgs : List Msg
  logs : List String
  response : Except String String
deriving DecidableEq

/-- Lines 127–140 of `worker.py`: the `try`/`except` around
`executor.submit(function, *args2, **kwargs2)`.  A normal return pairs the
result with the coarse status `b'success'`; any exception is caught and the
exception object (carrying message and traceback) becomes the stored result,
paired with `b'error'`. -/
def runJob (f : List Value → List (String × Value) → Except PyExc Value)
    (args2 : List Value) (kwargs2 : List (String × Value)) : Value × String :=
  match f args2 kwargs2 with
  | Except.ok v => (v, "success")
  | Except.error e => (Value.exc e.msg e.tb, "error")

/-- `Worker.work` (the `compute` handler), lines 109–149 of `worker.py`.
`resolve` models the Center's key resolution used by the peer fetch;
`addKeysResp` is the Center's response to the `add_keys` report.  The fetch
happens outside any exception handler, so a gather failure escapes as
`Except.error`.  User-function exceptions are caught: the exception object
is stored under `key` and the coarse response is `b'error'`; on normal
return the value is stored and the response is `b'success'`.  The result is
written into `self.data` (never the merged view), and `add_keys` is reported
best-effort: a non-`OK` response is only logged.  The peer request list sent
by the modelled fetcher is deduplicated (spec: the PeerFetcher is "given a
set of missing keys"). -/
def Worker.work (w : Worker) (resolve : Key → Option Value)
    (addKeysResp : String)
    (function : List Value → List (String × Value) → Except PyExc Value)
    (key : Key) (args : List Arg) (kwargs : List (String × Arg))
    (needed : List Key) : WorkOutcome :=
  let needed2 := fetchList w needed
  let gmsgs : List Msg :=
    if needed2.isEmpty then [] else [Msg.gather needed2.dedup]
  match fetchResult w resolve needed2 with
  | Except.error e =>
    { worker := w, msgs := gmsgs, logs := [], response := Except.error e }
  | Except.ok data2 =>
    let args2 := args.map (fun a => keys_to_data a data2)
    let kwargs2 := kwargs.map (fun p => (p.1, keys_to_data p.2 data2))
    let res : Value × String := runJob function args2 kwargs2
    { worker := { w with data := dictInsert w.data key res.1 }
      msgs := gmsgs ++ [Msg.addKeys (w.ip, w.port) true [key]]
      logs := if addKeysResp == "OK" then []
        else ["Could not report results of work to center: " ++ addKeysResp]
      response := Except.ok res.2 }

/-- The dict comprehension `{k: self.data[k] for k in keys}` of
`Worker.get_data`, built left to right; `none` models the `KeyError` raised
when a requested key is absent. -/
def lookupAllPairs (d : Dict) : List Key → Option (List (Key × Value))
  | [] => some []
  | k :: rest =>
    match dictLookup d k with
    | none => none
    | some v => (lookupAllPairs d rest).map (fun ps => (k, v) :: ps)

/-- `Worker.get_data` handler, line 170–171 of `worker.py`: a pure read of
the local data — it returns the requested slice of `data`, leaves the worker
unchanged and sends no registry message. -/
def Worker.get_data (w : Worker) (keys : List Key) :
    Option Dict × Worker × List Msg :=
  ((lookupAllPairs w.data keys).map dictOfPairs, w, [])

/-- All keys requested from peers across the messages of one call. -/
def gatherTargets (msgs : List Msg) : List Key :=
  msgs.foldr
    (fun m acc => match m with | Msg.gather ks => ks ++ acc | _ => acc) []

/-- The effective data view a `work` call computes for `needed`, observed
through a lookup of key `k`: `none` when the fetch fails (the call raises),
otherwise the view's value for `k` (if any). -/
def effViewLookup (w : Worker) (resolve : Key → Option Value)
    (needed : List Key) (k : Key) : Option (Option Value) :=
  (fetchResult w resolve (fetchList w needed)).toOption.map
    (fun d => dictLookup d k)

/-! ### Concrete instances used by witnesses and counterexamples -/

/-- A freshly constructed worker with an empty LocalStore. -/
def w0 : Worker := Worker.init "127.0.0.1" 8001 "127.0.0.1" 8000 (some 1) 4

/-- A worker already holding `x = 2` and `y = 3`. -/
def wxy : Worker := { w0 with data := [("x", Value.int 2), ("y", Value.int 3)] }

/-- A user function that ignores its arguments and returns `0`. -/
def f0 : List Value → List (String × Value) → Except PyExc Value :=
  fun _ _ => Except.ok (Value.int 0)

/-- A user function that always raises. -/
def fboom : List Value → List (String × Value) → Except PyExc Value :=
  fun _ _ => Except.error ⟨"boom", "tb0"⟩

/-- Binary addition on integer arguments, raising a `TypeError` otherwise. -/
def fadd : List Value → List (String × Value) → Except PyExc Value :=
  fun a _ =>
    match a with
    | [Value.int m, Value.int n] => Except.ok (Value.int (m + n))
    | _ => Except.error ⟨"TypeError", ""⟩

/-- A Center that resolves `x` to `2` and `y` to `3` and nothing else. -/
def resolveXY : Key → Option Value :=
  fun k => if k == "x" then some (Value.int 2)
    else if k == "y" then some (Value.int 3) else none

/-- A Center that resolves nothing. -/
def noResolve : Key → Option Value := fun _ => none

/-! ### Dictionary lemmas -/

theorem dictLookup_cons (p : Key × Value) (rest : Dict) (k : Key) :
    dictLookup (p :: rest) k =
      if p.1 = k then some p.2 else dictLookup rest k := by
  by_cases h : p.1 = k
  · rw [dictLookup, List.find?_cons_of_pos _ (by simp [h]), if_pos h]
    rfl
  · rw [dictLookup, List.find?_cons_of_neg _ (by simp [h]), if_neg h]
    rfl

theorem dictContains_cons (p : Key × Value) (rest : Dict) (k : Key) :
    dictContains (p :: rest) k = (p.1 == k || dictContains rest k) := by
  simp [dictContains]

theorem dictInsert_cons_hit (p : Key × Value) (rest : Dict) (k : Key)
    (v : Value) (h : p.1 = k) :
    dictInsert (p :: rest) k v = (k, v) :: rest := by
  simp [dictInsert, h]

theorem dictInsert_cons_miss (p : Key × Value) (rest : Dict) (k : Key)
    (v : Value) (h : ¬p.1 = k) :
    dictInsert (p :: rest) k v = p :: dictInsert rest k v := by
  simp [dictInsert, h]

theorem dictLookup_insert (d : Dict) (k k' : Key) (v : Value) :
    dictLookup (dictInsert d k v) k' =
      if k' = k then some v else dictLookup d k' := by
  induction d with
  | nil =>
    show dictLookup ((k, v) :: []) k' = _
    rw [dictLookup_cons]
    by_cases h : k' = k
    · rw [if_pos h.symm, if_pos h]
    · rw [if_neg (fun hc => h hc.symm), if_neg h]
  | cons p rest ih =>
    by_cases hp : p.1 = k
    · rw [dictInsert_cons_hit p rest k v hp, dictLookup_cons, dictLookup_cons]
      by_cases h : k' = k
      · rw [if_pos h.symm, if_pos h]
      · rw [if_neg (fun hc => h hc.symm), if_neg h,
          if_neg (fun hc : p.1 = k' => h (hc.symm.trans hp))]
    · rw [dictInsert_cons_miss p rest k v hp, dictLookup_cons, ih,
        dictLookup_cons]
      by_cases h : p.1 = k'
      · rw [if_pos h, if_pos h,
          if_neg (fun hc : k' = k => hp (h.trans hc))]
      · rw [if_neg h, if_neg h]

theorem dictContains_eq_isSome (d : Dict) (k : Key) :
    dictContains d k = (dictLookup d k).isSome := by
  induction d with
  | nil => rfl
  | cons p rest ih =>
    rw [dictContains_cons, dictLookup_cons]
    by_cases h : p.1 = k
    · simp [h]
    · simp [h, ih]

theorem dictLookup_eq_none (d : Dict) (k : Key)
    (h : dictContains d k = false) : dictLookup d k = none := by
  have hs := dictContains_eq_isSome d k
  rw [h] at hs
  exact Option.not_isSome_iff_eq_none.1 (by simp [← hs])

theorem dictContains_insert (d : Dict) (k k' : Key) (v : Value) :
    dictContains (dictInsert d k v) k' = (k' == k || dictContains d k') := by
  rw [dictContains_eq_isSome, dictContains_eq_isSome, dictLookup_insert]
  by_cases h : k' = k
  · simp [h]
  · simp [h]

/-- Every value of the dict is determined by `g` applied to its key. -/
def keyedBy (g : Key → Value) (d : Dict) : Prop :=
  ∀ p ∈ d, p.2 = g p.1

theorem keyedBy_insert (g : Key → Value) (d : Dict) (k : Key)
    (hd : keyedBy g d) : keyedBy g (dictInsert d k (g k)) := by
  induction d with
  | nil =>
    intro p hp
    simp [dictInsert] at hp
    subst hp
    rfl
  | cons q rest ih =>
    have hq2 : q.2 = g q.1 := hd q (List.mem_cons_self q rest)
    have hrest : keyedBy g rest := fun r hr => hd r (List.mem_cons_of_mem q hr)
    by_cases hq : q.1 = k
    · rw [dictInsert_cons_hit q rest k (g k) hq]
      intro p hp
      rcases List.mem_cons.1 hp with hp | hp
      · subst hp; rfl
      · exact hrest p hp
    · rw [dictInsert_cons_miss q rest k (g k) hq]
      intro p hp
      rcases List.mem_cons.1 hp with hp | hp
      · subst hp; exact hq2
      · exact ih hrest p hp

/-- Folding keyed entries into `a`: the entries win for their keys, and the
value is determined by `g`. -/
theorem dictLookup_foldl_keyed (g : Key → Value) (b : List (Key × Value))
    (hb : keyedBy g b) (a : Dict) (k : Key) :
    dictLookup (b.foldl (fun d p => dictInsert d p.1 p.2) a) k =
      if dictContains b k then some (g k) else dictLookup a k := by
  induction b generalizing a with
  | nil => simp [dictContains]
  | cons p rest ih =>
    have hpv : p.2 = g p.1 := hb p (List.mem_cons_self p rest)
    have hrest : keyedBy g rest :=
      fun q hq => hb q (List.mem_cons_of_mem p hq)
    rw [List.foldl_cons, ih hrest, dictContains_cons]
    by_cases hmem : dictContains rest k = true
    · rw [if_pos hmem, if_pos (by rw [hmem, Bool.or_true])]
    · have hmemf : dictContains rest k = false := by
        simpa using hmem
      rw [if_neg hmem, dictLookup_insert, hpv]
      by_cases hk : k = p.1
      · rw [if_pos hk, hk, if_pos (by simp)]
      · have hpk : ¬p.1 = k := fun hc => hk hc.symm
        rw [if_neg hk, if_neg (by simp [hmemf, hpk])]

theorem beq_comm_key (k k' : Key) : (k == k') = (k' == k) := by
  by_cases h : k = k'
  · simp [h]
  · have h' : ¬k' = k := fun hc => h hc.symm
    simp [h, h']

theorem dictContains_foldl (b : List (Key × Value)) (a : Dict) (k : Key) :
    dictContains (b.foldl (fun d p => dictInsert d p.1 p.2) a) k =
      (dictContains a k || dictContains b k) := by
  induction b generalizing a with
  | nil => simp [dictContains]
  | cons p rest ih =>
    rw [List.foldl_cons, ih, dictContains_insert, dictContains_cons,
      beq_comm_key k p.1]
    cases p.1 == k <;> cases dictContains a k <;>
      cases dictContains rest k <;> rfl

theorem keyedBy_map_form (g : Key → Value) (l : List Key) :
    keyedBy g (l.map (fun x => (x, g x))) := by
  intro p hp
  simp only [List.mem_map] at hp
  obtain ⟨x, _, hx⟩ := hp
  subst hx
  rfl

theorem dictContains_iff_exists (d : Dict) (k : Key) :
    dictContains d k = true ↔ ∃ p ∈ d, p.1 = k := by
  simp [dictContains, List.any_eq_true]

theorem dictContains_map_form (g : Key → Value) (l : List Key) (k : Key) :
    dictContains (l.map (fun x => (x, g x))) k = true ↔ k ∈ l := by
  rw [dictContains_iff_exists]
  constructor
  · rintro ⟨p, hp, hk⟩
    obtain ⟨x, hx, hxp⟩ := List.mem_map.1 hp
    subst hxp
    exact hk ▸ hx
  · intro h
    exact ⟨(k, g k), List.mem_map.2 ⟨k, h, rfl⟩, rfl⟩

theorem keyedBy_foldl (g : Key → Value) (b : List (Key × Value)) (a : Dict)
    (hb : keyedBy g b) (ha : keyedBy g a) :
    keyedBy g (b.foldl (fun d p => dictInsert d p.1 p.2) a) := by
  induction b generalizing a with
  | nil => exact ha
  | cons p rest ih =>
    have hpv : p.2 = g p.1 := hb p (List.mem_cons_self p rest)
    rw [List.foldl_cons]
    refine ih (dictInsert a p.1 p.2)
      (fun q hq => hb q (List.mem_cons_of_mem p hq)) ?_
    rw [hpv]
    exact keyedBy_insert g a p.1 ha

theorem zip_self_map (g : Key → Value) (l : List Key) :
    l.zip (l.map g) = l.map (fun x => (x, g x)) := by
  induction l with
  | nil => rfl
  | cons x rest ih => simp [ih]

/-! ### Gather and fetch lemmas -/

theorem option_some_getD (o : Option Value) (h : o.isSome = true) :
    some (o.getD (Value.str "")) = o := by
  cases o
  · simp at h
  · rfl

theorem gather_ok (resolve : Key → Option Value) (l : List Key)
    (h : ∀ k ∈ l, (resolve k).isSome = true) :
    gather_strict_from_center resolve l =
      Except.ok (l.map (fun k => (resolve k).getD (Value.str ""))) := by
  induction l with
  | nil => rfl
  | cons k rest ih =>
    have hk : (resolve k).isSome = true := h k (List.mem_cons_self k rest)
    obtain ⟨v, hv⟩ := Option.isSome_iff_exists.1 hk
    rw [gather_strict_from_center, hv,
      ih (fun k' hk' => h k' (List.mem_cons_of_mem k hk'))]
    simp [hv, Except.map]

theorem gather_error (resolve : Key → Option Value) (l : List Key)
    (k0 : Key) (hmem : k0 ∈ l) (h0 : resolve k0 = none) :
    ∃ e, gather_strict_from_center resolve l = Except.error e := by
  induction l with
  | nil => cases hmem
  | cons k rest ih =>
    cases hres : resolve k with
    | none => exact ⟨_, by rw [gather_strict_from_center, hres]⟩
    | some v =>
      rcases List.mem_cons.1 hmem with hk | hk
      · subst hk
        rw [h0] at hres
        cases hres
      · obtain ⟨e, he⟩ := ih hk
        refine ⟨e, ?_⟩
        rw [gather_strict_from_center, hres, he]
        rfl

theorem fetchResult_ok (w : Worker) (resolve : Key → Option Value)
    (l : List Key) (h : ∀ k ∈ l, (resolve k).isSome = true) :
    ∃ d, fetchResult w resolve l = Except.ok d ∧
      ∀ k, dictLookup d k =
        if k ∈ l then resolve k else dictLookup w.data k := by
  by_cases hl : l.isEmpty = true
  · have hnil : l = [] := by
      cases l with
      | nil => rfl
      | cons a t => simp [List.isEmpty] at hl
    subst hnil
    refine ⟨w.data, by simp [fetchResult], ?_⟩
    intro k
    simp
  · rw [fetchResult, if_neg hl, gather_ok resolve l h]
    refine ⟨merge w.data (dictOfPairs
      (l.zip (l.map (fun k => (resolve k).getD (Value.str ""))))), rfl, ?_⟩
    intro k
    rw [zip_self_map]
    have hkeyb : keyedBy (fun k => (resolve k).getD (Value.str ""))
        (dictOfPairs (l.map
          (fun x => (x, (resolve x).getD (Value.str ""))))) := by
      rw [dictOfPairs]
      exact keyedBy_foldl _ _ []
        (keyedBy_map_form _ l) (fun p hp => absurd hp (List.not_mem_nil p))
    rw [merge, dictLookup_foldl_keyed _ _ hkeyb w.data k]
    have hcont : dictContains (dictOfPairs (l.map
        (fun x => (x, (resolve x).getD (Value.str ""))))) k = true ↔
        k ∈ l := by
      rw [dictOfPairs, dictContains_foldl]
      have : dictContains [] k = false := rfl
      rw [this, Bool.false_or]
      exact dictContains_map_form _ l k
    by_cases hmem : k ∈ l
    · rw [if_pos (hcont.2 hmem), if_pos hmem]
      exact option_some_getD _ (h k hmem)
    · rw [if_neg (fun hc => hmem (hcont.1 hc)), if_neg hmem]

theorem fetchResult_error (w : Worker) (resolve : Key → Option Value)
    (l : List Key) (k0 : Key) (hmem : k0 ∈ l) (h0 : resolve k0 = none) :
    ∃ e, fetchResult w resolve l = Except.error e := by
  obtain ⟨e, he⟩ := gather_error resolve l k0 hmem h0
  have hl : l.isEmpty = false := by
    cases l with
    | nil => cases hmem
    | cons a t => rfl
  refine ⟨e, ?_⟩
  rw [fetchResult, if_neg (by simp [hl]), he]
  rfl

theorem mem_fetchList (w : Worker) (needed : List Key) (k : Key) :
    k ∈ fetchList w needed ↔
      k ∈ needed ∧ dictContains w.data k = false := by
  simp [fetchList, List.mem_filter]

theorem mem_fetchList_dedup (w : Worker) (needed : List Key) (k : Key) :
    k ∈ fetchList w needed.dedup ↔ k ∈ fetchList w needed := by
  simp [mem_fetchList, List.mem_dedup]

/-! ### Case lemmas for `Worker.work` -/

theorem work_fetch_error (w : Worker) (resolve : Key → Option Value)
    (r : String) (f : List Value → List (String × Value) → Except PyExc Value)
    (key : Key) (args : List Arg) (kwargs : List (String × Arg))
    (needed : List Key) (e : String)
    (h : fetchResult w resolve (fetchList w needed) = Except.error e) :
    w.work resolve r f key args kwargs needed =
      { worker := w
        msgs := if (fetchList w needed).isEmpty then []
          else [Msg.gather (fetchList w needed).dedup]
        logs := []
        response := Except.error e } := by
  simp only [Worker.work]
  rw [h]

theorem work_fetch_ok (w : Worker) (resolve : Key → Option Value)
    (r : String) (f : List Value → List (String × Value) → Except PyExc Value)
    (key : Key) (args : List Arg) (kwargs : List (String × Arg))
    (needed : List Key) (data2 : Dict)
    (h : fetchResult w resolve (fetchList w needed) = Except.ok data2) :
    w.work resolve r f key args kwargs needed =
      { worker := { w with
          data := dictInsert w.data key (runJob f
            (args.map (fun a => keys_to_data a data2))
            (kwargs.map (fun p => (p.1, keys_to_data p.2 data2)))).1 },
        msgs := (if (fetchList w needed).isEmpty then []
          else [Msg.gather (fetchList w needed).dedup]) ++
          [Msg.addKeys (w.ip, w.port) true [key]],
        logs := if r == "OK" then []
          else ["Could not report results of work to center: " ++ r],
        response := Except.ok (runJob f
          (args.map (fun a => keys_to_data a data2))
          (kwargs.map (fun p => (p.1, keys_to_data p.2 data2)))).2 } := by
  simp only [Worker.work]
  rw [h]

/-! ### Claim C1 — dependency-resolution failure -/

/-- C1 counterexample: with an empty LocalStore and a Center that cannot
resolve `missing_key`, the `compute` call raises the gather failure out of
the handler instead of returning the coarse status `error`, and stores no
failure record under the task key `z` — contrary to the claim. -/
theorem C1_counterexample :
    (w0.work noResolve "OK" f0 "z" [] [] ["missing_key"]).response ≠
      Except.ok "error" ∧
    dictLookup
      (w0.work noResolve "OK" f0 "z" [] [] ["missing_key"]).worker.data
      "z" = none := by
  constructor
  · intro hc
    have hresp :
        (w0.work noResolve "OK" f0 "z" [] [] ["missing_key"]).response =
          Except.error "Could not find dependency missing_key" := by
      rfl
    rw [hresp] at hc
    cases hc
  · rfl

/-- C1 (amended): `Worker.work` performs the dependency fetch outside its
`try`/`except`, so when a needed key that is not already local cannot be
resolved by the Center, the failure escapes the handler as an exception
rather than as a stored outcome: the call returns no coarse status
(`response.isOk = false`), and the worker's LocalStore is left unchanged —
in particular no failure record is stored under `key`. -/
theorem C1_fetch_failure_escapes (w : Worker) (resolve : Key → Option Value)
    (r : String) (f : List Value → List (String × Value) → Except PyExc Value)
    (key : Key) (args : List Arg) (kwargs : List (String × Arg))
    (needed : List Key) (k0 : Key) (hmem : k0 ∈ needed)
    (hloc : dictContains w.data k0 = false) (hres : resolve k0 = none) :
    (w.work resolve r f key args kwargs needed).response.isOk = false ∧
    (w.work resolve r f key args kwargs needed).worker = w := by
  have hk : k0 ∈ fetchList w needed :=
    (mem_fetchList w needed k0).2 ⟨hmem, hloc⟩
  obtain ⟨e, he⟩ := fetchResult_error w resolve (fetchList w needed) k0 hk hres
  rw [work_fetch_error w resolve r f key args kwargs needed e he]
  exact ⟨rfl, rfl⟩

/-- C1 witness: the amended theorem at the concrete scenario of the spec
(`needed = ["missing_key"]`, unresolvable). -/
theorem C1_witness :
    (w0.work noResolve "OK" f0 "z" [] [] ["missing_key"]).response.isOk =
      false ∧
    (w0.work noResolve "OK" f0 "z" [] [] ["missing_key"]).worker = w0 :=
  C1_fetch_failure_escapes w0 noResolve "OK" f0 "z" [] [] ["missing_key"]
    "missing_key" (by decide) rfl rfl

/-! ### Claim C2 — terminate idempotence -/

/-- C2 counterexample: after a first `terminate` has set the status to
`closed`, a second `terminate` call still sends an `unregister` message to
the Center — the claimed "no second unregister" fails on the code (the
status does remain `closed`). -/
theorem C2_counterexample :
    (Worker.terminate w0).1.status = some "closed" ∧
    (Worker.terminate (Worker.terminate w0).1).2 =
      [Msg.unregister ("127.0.0.1", 8001)] ∧
    (Worker.terminate (Worker.terminate w0).1).2 ≠ [] := by
  refine ⟨rfl, rfl, ?_⟩
  intro hc
  cases hc

/-- C2 (amended): `terminate` is not guarded by the `closed` status — called
on a worker that is already `closed` it runs the shutdown sequence again and
sends another `unregister(address)` to the Center; the status is re-assigned
and therefore remains `closed`. -/
theorem C2_terminate_repeats_unregister (w : Worker)
    (h : w.status = some "closed") :
    (Worker.terminate w).2 = [Msg.unregister (w.ip, w.port)] ∧
    (Worker.terminate w).1.status = some "closed" :=
  ⟨rfl, rfl⟩

/-- C2 witness: the amended theorem applied to a worker already closed by a
first `terminate` call. -/
theorem C2_witness :
    (Worker.terminate (Worker.terminate w0).1).2 =
      [Msg.unregister ("127.0.0.1", 8001)] ∧
    (Worker.terminate (Worker.terminate w0).1).1.status = some "closed" :=
  C2_terminate_repeats_unregister (Worker.terminate w0).1 rfl

/-! ### Claim C3 — status `running` only after acknowledged registration -/

/-- C3 counterexample: a freshly constructed worker already has status
`running` although no registration has happened yet, and `_start` with a
non-`OK` register response aborts with an `AssertionError` while the status
stays `running` — contrary to the claim. -/
theorem C3_counterexample :
    w0.status = some "running" ∧
    (Worker._start w0 "not ok").1 = Except.error "AssertionError" ∧
    (Worker._start w0 "not ok").2 = [Msg.register 1 ("127.0.0.1", 8001)] := by
  refine ⟨rfl, ?_, rfl⟩
  rfl

/-- C3 (amended): the constructor sets the status to `running`
unconditionally, before any registration is attempted; `_start` sends
`register(ncores, address)` and asserts the literal `OK` reply, aborting
with an `AssertionError` on any other reply — but the worker's status is
`running` regardless of the registration outcome. -/
theorem C3_running_before_registration (ip : String) (port : Nat)
    (cip : String) (cport : Nat) (nc : Option Nat) (mc : Nat) (resp : String)
    (hresp : resp ≠ "OK") :
    (Worker.init ip port cip cport nc mc).status = some "running" ∧
    (Worker._start (Worker.init ip port cip cport nc mc) resp).1 =
      Except.error "AssertionError" ∧
    (Worker._start (Worker.init ip port cip cport nc mc) resp).2 =
      [Msg.register (Worker.init ip port cip cport nc mc).ncores
        (ip, port)] := by
  refine ⟨rfl, ?_, rfl⟩
  simp [Worker._start, hresp]

/-- C3 witness: the amended theorem at a concrete worker whose registration
is rejected. -/
theorem C3_witness :
    (Worker.init "127.0.0.1" 8001 "127.0.0.1" 8000 (some 1) 4).status =
      some "running" ∧
    (Worker._start (Worker.init "127.0.0.1" 8001 "127.0.0.1" 8000 (some 1) 4)
      "NO").1 = Except.error "AssertionError" ∧
    (Worker._start (Worker.init "127.0.0.1" 8001 "127.0.0.1" 8000 (some 1) 4)
      "NO").2 = [Msg.register 1 ("127.0.0.1", 8001)] :=
  C3_running_before_registration "127.0.0.1" 8001 "127.0.0.1" 8000 (some 1) 4
    "NO" (by decide)

/-! ### Claim C4 — user-function exceptions become stored failures -/

/-- C4: when the submitted user function raises an exception, `compute`
returns the coarse status `error` and stores under `key` the failure
record — the exception object carrying the exception message and the
formatted traceback; the exception is not re-raised past the handler
boundary (the response is a normal `Except.ok`, not an escaping
exception). -/
theorem C4_user_exception_stored (w : Worker) (resolve : Key → Option Value)
    (r : String) (f : List Value → List (String × Value) → Except PyExc Value)
    (key : Key) (args : List Arg) (kwargs : List (String × Arg))
    (needed : List Key) (data2 : Dict) (m t : String)
    (hfetch : fetchResult w resolve (fetchList w needed) = Except.ok data2)
    (hf : f (args.map (fun a => keys_to_data a data2))
        (kwargs.map (fun p => (p.1, keys_to_data p.2 data2))) =
      Except.error ⟨m, t⟩) :
    (w.work resolve r f key args kwargs needed).response =
      Except.ok "error" ∧
    dictLookup (w.work resolve r f key args kwargs needed).worker.data key =
      some (Value.exc m t) := by
  rw [work_fetch_ok w resolve r f key args kwargs needed data2 hfetch]
  constructor
  · simp [runJob, hf]
  · simp [runJob, hf, dictLookup_insert]

/-- C4 witness: a user function that always raises `boom`, on a worker with
no dependencies to fetch. -/
theorem C4_witness :
    (wxy.work noResolve "OK" fboom "z" [] [] []).response =
      Except.ok "error" ∧
    dictLookup (wxy.work noResolve "OK" fboom "z" [] [] []).worker.data "z" =
      some (Value.exc "boom" "tb0") :=
  C4_user_exception_stored wxy noResolve "OK" fboom "z" [] [] [] wxy.data
    "boom" "tb0" rfl rfl

/-! ### Claim C5 — successful computation is stored and readable -/

/-- C5: when the user function returns normally with value `v`, `compute`
returns the coarse status `success`, LocalStore maps `key` to `v`, and a
subsequent `get_data([key])` returns exactly that stored value. -/
theorem C5_success_stored_and_readable (w : Worker)
    (resolve : Key → Option Value) (r : String)
    (f : List Value → List (String × Value) → Except PyExc Value)
    (key : Key) (args : List Arg) (kwargs : List (String × Arg))
    (needed : List Key) (data2 : Dict) (v : Value)
    (hfetch : fetchResult w resolve (fetchList w needed) = Except.ok data2)
    (hf : f (args.map (fun a => keys_to_data a data2))
        (kwargs.map (fun p => (p.1, keys_to_data p.2 data2))) =
      Except.ok v) :
    (w.work resolve r f key args kwargs needed).response =
      Except.ok "success" ∧
    dictLookup (w.work resolve r f key args kwargs needed).worker.data key =
      some v ∧
    ((w.work resolve r f key args kwargs needed).worker.get_data [key]).1 =
      some [(key, v)] := by
  rw [work_fetch_ok w resolve r f key args kwargs needed data2 hfetch]
  have hlook : dictLookup (dictInsert w.data key (runJob f
      (args.map (fun a => keys_to_data a data2))
      (kwargs.map (fun p => (p.1, keys_to_data p.2 data2)))).1) key =
      some v := by
    simp [runJob, hf, dictLookup_insert]
  refine ⟨by simp [runJob, hf], hlook, ?_⟩
  simp [Worker.get_data, lookupAllPairs, hlook, dictOfPairs, dictInsert]

/-- C5 witness: the spec's scenario — an empty worker computes
`z = add(x, y)` with `x = 2`, `y = 3` fetched from peers, stores `5` and
serves it back through `get_data`. -/
theorem C5_witness :
    (w0.work resolveXY "OK" fadd "z" [Arg.ref "x", Arg.ref "y"] []
      ["x", "y"]).response = Except.ok "success" ∧
    dictLookup (w0.work resolveXY "OK" fadd "z" [Arg.ref "x", Arg.ref "y"] []
      ["x", "y"]).worker.data "z" = some (Value.int 5) ∧
    ((w0.work resolveXY "OK" fadd "z" [Arg.ref "x", Arg.ref "y"] []
      ["x", "y"]).worker.get_data ["z"]).1 = some [("z", Value.int 5)] :=
  C5_success_stored_and_readable w0 resolveXY "OK" fadd "z"
    [Arg.ref "x", Arg.ref "y"] [] ["x", "y"]
    [("x", Value.int 2), ("y", Value.int 3)] (Value.int 5) rfl rfl

/-! ### Claim C6 — add_keys report failure does not change the response -/

/-- C6: the Center's response to the `add_keys` report does not influence
the coarse status `compute` returns: with any non-`OK` report response the
call returns exactly the response it returns with `OK` (and the same worker
state and messages); the report failure is only logged. -/
theorem C6_report_failure_only_logged (w : Worker)
    (resolve : Key → Option Value) (r : String)
    (f : List Value → List (String × Value) → Except PyExc Value)
    (key : Key) (args : List Arg) (kwargs : List (String × Arg))
    (needed : List Key) (hr : r ≠ "OK") :
    (w.work resolve r f key args kwargs needed).response =
      (w.work resolve "OK" f key args kwargs needed).response ∧
    (w.work resolve r f key args kwargs needed).worker =
      (w.work resolve "OK" f key args kwargs needed).worker ∧
    (w.work resolve r f key args kwargs needed).msgs =
      (w.work resolve "OK" f key args kwargs needed).msgs ∧
    ((w.work resolve r f key args kwargs needed).response.isOk = true →
      (w.work resolve r f key args kwargs needed).logs =
        ["Could not report results of work to center: " ++ r]) := by
  cases hfe : fetchResult w resolve (fetchList w needed) with
  | error e =>
    rw [work_fetch_error w resolve r f key args kwargs needed e hfe,
      work_fetch_error w resolve "OK" f key args kwargs needed e hfe]
    exact ⟨rfl, rfl, rfl, fun hc => by
      simp [Except.isOk, Except.toBool] at hc⟩
  | ok data2 =>
    rw [work_fetch_ok w resolve r f key args kwargs needed data2 hfe,
      work_fetch_ok w resolve "OK" f key args kwargs needed data2 hfe]
    refine ⟨rfl, rfl, rfl, fun _ => ?_⟩
    simp [hr]

/-- C6 witness: with report response `NOPE` the call returns the same
response as with `OK`, and the failure is logged. -/
theorem C6_witness :
    (wxy.work noResolve "NOPE" fboom "z" [] [] []).response =
      (wxy.work noResolve "OK" fboom "z" [] [] []).response ∧
    (wxy.work noResolve "NOPE" fboom "z" [] [] []).logs =
      ["Could not report results of work to center: NOPE"] :=
  ⟨(C6_report_failure_only_logged wxy noResolve "NOPE" fboom "z" [] [] []
      (by decide)).1,
    (C6_report_failure_only_logged wxy noResolve "NOPE" fboom "z" [] [] []
      (by decide)).2.2.2 rfl⟩

/-! ### Claims C7–C9 — the peer fetch -/

theorem fetchList_empty_of_all_local (w : Worker) (needed : List Key)
    (h : ∀ k ∈ needed, dictContains w.data k = true) :
    fetchList w needed = [] := by
  rw [fetchList]
  exact List.filter_eq_nil_iff.2 (fun a ha => by simp [h a ha])

theorem fetchResult_isEmpty_ne_error (w : Worker)
    (resolve : Key → Option Value) (needed : List Key) (e : String)
    (hfe : fetchResult w resolve (fetchList w needed) = Except.error e) :
    (fetchList w needed).isEmpty = false := by
  cases hl : (fetchList w needed) with
  | nil =>
    rw [hl] at hfe
    simp [fetchResult] at hfe
  | cons a t => rfl

/-- All keys the `work` call requests from peers: the deduplicated list of
needed keys not already local (empty when the fetch is skipped). -/
theorem gatherTargets_work (w : Worker) (resolve : Key → Option Value)
    (r : String) (f : List Value → List (String × Value) → Except PyExc Value)
    (key : Key) (args : List Arg) (kwargs : List (String × Arg))
    (needed : List Key) :
    gatherTargets (w.work resolve r f key args kwargs needed).msgs =
      (fetchList w needed).dedup := by
  cases hfe : fetchResult w resolve (fetchList w needed) with
  | error e =>
    have hne := fetchResult_isEmpty_ne_error w resolve needed e hfe
    rw [work_fetch_error w resolve r f key args kwargs needed e hfe]
    rw [show ((if (fetchList w needed).isEmpty then ([] : List Msg)
        else [Msg.gather (fetchList w needed).dedup]) =
        [Msg.gather (fetchList w needed).dedup]) from by rw [hne]; simp]
    simp [gatherTargets]
  | ok data2 =>
    rw [work_fetch_ok w resolve r f key args kwargs needed data2 hfe]
    by_cases hl : (fetchList w needed).isEmpty = true
    · have hnil : fetchList w needed = [] := List.isEmpty_iff.1 hl
      rw [show ((if (fetchList w needed).isEmpty then ([] : List Msg)
          else [Msg.gather (fetchList w needed).dedup]) = []) from by
        rw [hl]; simp]
      rw [hnil]
      simp [gatherTargets]
    · rw [show ((if (fetchList w needed).isEmpty then ([] : List Msg)
          else [Msg.gather (fetchList w needed).dedup]) =
          [Msg.gather (fetchList w needed).dedup]) from by
        rw [if_neg hl]]
      simp [gatherTargets]

/-- C7: the keys requested from peers are exactly the needed keys not
already present in LocalStore (local keys are excluded from the fetch), and
when every needed key is local the fetch is skipped entirely — no gather
request is issued and the only message of the call is the `add_keys`
report. -/
theorem C7_fetch_set_exact (w : Worker) (resolve : Key → Option Value)
    (r : String) (f : List Value → List (String × Value) → Except PyExc Value)
    (key : Key) (args : List Arg) (kwargs : List (String × Arg))
    (needed : List Key) :
    (∀ k, k ∈ gatherTargets
        (w.work resolve r f key args kwargs needed).msgs ↔
      (k ∈ needed ∧ dictContains w.data k = false)) ∧
    ((∀ k ∈ needed, dictContains w.data k = true) →
      (w.work resolve r f key args kwargs needed).msgs =
        [Msg.addKeys (w.ip, w.port) true [key]]) := by
  constructor
  · intro k
    rw [gatherTargets_work w resolve r f key args kwargs needed,
      List.mem_dedup]
    exact mem_fetchList w needed k
  · intro h
    have hnil : fetchList w needed = [] := fetchList_empty_of_all_local w needed h
    have hok : fetchResult w resolve (fetchList w needed) =
        Except.ok w.data := by
      rw [hnil]
      simp [fetchResult]
    rw [work_fetch_ok w resolve r f key args kwargs needed w.data hok]
    rw [show ((if (fetchList w needed).isEmpty then ([] : List Msg)
        else [Msg.gather (fetchList w needed).dedup]) = []) from by
      rw [hnil]; simp]
    rfl

/-- C7 witness: with both needed keys already local, the call issues no
gather request and its only message is the `add_keys` report. -/
theorem C7_witness :
    (wxy.work noResolve "OK" f0 "z" [] [] ["x", "y"]).msgs =
      [Msg.addKeys ("127.0.0.1", 8001) true ["z"]] :=
  (C7_fetch_set_exact wxy noResolve "OK" f0 "z" [] [] ["x", "y"]).2
    (by decide)

/-! ### Claim C8 — fetched values are never stored -/

/-- C8: `compute` never writes fetched dependency values into LocalStore:
whatever the outcome, every key other than the task `key` maps to the same
value as before the call, and when the call completes with a coarse status
the task `key` is present (added or overwritten). -/
theorem C8_frame (w : Worker) (resolve : Key → Option Value) (r : String)
    (f : List Value → List (String × Value) → Except PyExc Value)
    (key : Key) (args : List Arg) (kwargs : List (String × Arg))
    (needed : List Key) :
    (∀ k, k ≠ key →
      dictLookup
        (w.work resolve r f key args kwargs needed).worker.data k =
        dictLookup w.data k) ∧
    ((w.work resolve r f key args kwargs needed).response.isOk = true →
      dictContains
        (w.work resolve r f key args kwargs needed).worker.data key =
        true) := by
  cases hfe : fetchResult w resolve (fetchList w needed) with
  | error e =>
    rw [work_fetch_error w resolve r f key args kwargs needed e hfe]
    exact ⟨fun k _ => rfl, fun hc => by
      simp [Except.isOk, Except.toBool] at hc⟩
  | ok data2 =>
    rw [work_fetch_ok w resolve r f key args kwargs needed data2 hfe]
    constructor
    · intro k hk
      simp [dictLookup_insert, hk]
    · intro _
      simp [dictContains_insert]

/-- C8 witness: computing `z` on a worker holding `x` leaves `x` unchanged
and adds `z`. -/
theorem C8_witness :
    dictLookup (wxy.work noResolve "OK" f0 "z" [] [] []).worker.data "x" =
      dictLookup wxy.data "x" ∧
    dictContains (wxy.work noResolve "OK" f0 "z" [] [] []).worker.data "z" =
      true := by
  have hc := C8_frame wxy noResolve "OK" f0 "z" [] [] []
  exact ⟨hc.1 "x" (by decide), hc.2 rfl⟩

/-! ### Claim C9 — duplicate needed keys -/

/-- C9: duplicate keys in `needed` are deduplicated: every key occurs at
most once in the peer request list of a `compute` call, and the effective
data view the call computes for `needed` agrees, lookup by lookup, with the
view computed for `needed` with duplicates removed. -/
theorem C9_needed_dedup (w : Worker) (resolve : Key → Option Value)
    (r : String) (f : List Value → List (String × Value) → Except PyExc Value)
    (key : Key) (args : List Arg) (kwargs : List (String × Arg))
    (needed : List Key) (k : Key) :
    (gatherTargets
      (w.work resolve r f key args kwargs needed).msgs).count k ≤ 1 ∧
    effViewLookup w resolve needed k =
      effViewLookup w resolve needed.dedup k := by
  constructor
  · rw [gatherTargets_work w resolve r f key args kwargs needed]
    exact List.nodup_iff_count_le_one.1 (List.nodup_dedup _) k
  · by_cases hall : ∀ k' ∈ fetchList w needed, (resolve k').isSome = true
    · have hall' : ∀ k' ∈ fetchList w needed.dedup,
          (resolve k').isSome = true :=
        fun k' hk' => hall k' ((mem_fetchList_dedup w needed k').1 hk')
      obtain ⟨d1, hd1, hl1⟩ :=
        fetchResult_ok w resolve (fetchList w needed) hall
      obtain ⟨d2, hd2, hl2⟩ :=
        fetchResult_ok w resolve (fetchList w needed.dedup) hall'
      rw [effViewLookup, effViewLookup, hd1, hd2]
      simp only [Except.toOption, Option.map_some']
      rw [hl1 k, hl2 k]
      by_cases hm : k ∈ fetchList w needed
      · rw [if_pos hm, if_pos ((mem_fetchList_dedup w needed k).2 hm)]
      · rw [if_neg hm,
          if_neg (fun hc => hm ((mem_fetchList_dedup w needed k).1 hc))]
    · push_neg at hall
      obtain ⟨k0, hk0, hk0n⟩ := hall
      have hk0none : resolve k0 = none := by
        cases hres : resolve k0 with
        | none => rfl
        | some v => rw [hres] at hk0n; simp at hk0n
      obtain ⟨e1, he1⟩ :=
        fetchResult_error w resolve (fetchList w needed) k0 hk0 hk0none
      obtain ⟨e2, he2⟩ :=
        fetchResult_error w resolve (fetchList w needed.dedup) k0
          ((mem_fetchList_dedup w needed k0).2 hk0) hk0none
      rw [effViewLookup, effViewLookup, he1, he2]
      rfl

/-! ### Claim C10 — get_data is a pure read -/

theorem lookupAllPairs_ok (d : Dict) (keys : List Key)
    (h : ∀ k ∈ keys, dictContains d k = true) :
    lookupAllPairs d keys =
      some (keys.map (fun k => (k, (dictLookup d k).getD (Value.str "")))) := by
  induction keys with
  | nil => rfl
  | cons k rest ih =>
    have hk : dictContains d k = true := h k (List.mem_cons_self k rest)
    have hks : (dictLookup d k).isSome = true := by
      rw [← dictContains_eq_isSome]; exact hk
    obtain ⟨v, hv⟩ := Option.isSome_iff_exists.1 hks
    rw [lookupAllPairs, hv,
      ih (fun k' hk' => h k' (List.mem_cons_of_mem k hk'))]
    simp [hv]

/-- C10: `get_data` is a pure read at the worker's interface: when every
requested key is present it returns a dict mapping each requested key to its
current LocalStore value, leaves the worker (and its LocalStore) unchanged
and performs no Center communication. -/
theorem C10_get_data_pure (w : Worker) (keys : List Key)
    (h : ∀ k ∈ keys, dictContains w.data k = true) :
    ((w.get_data keys).1.isSome = true) ∧
    (∀ k ∈ keys, dictLookup ((w.get_data keys).1.getD []) k =
      dictLookup w.data k) ∧
    (w.get_data keys).2.1 = w ∧
    (w.get_data keys).2.2 = [] := by
  have hall := lookupAllPairs_ok w.data keys h
  refine ⟨?_, ?_, rfl, rfl⟩
  · rw [Worker.get_data]
    simp [hall]
  · intro k hk
    rw [Worker.get_data]
    simp only [hall, Option.map_some', Option.getD_some]
    rw [dictOfPairs, dictLookup_foldl_keyed _ _ (keyedBy_map_form _ keys) [] k,
      if_pos ((dictContains_map_form _ keys k).2 hk)]
    exact option_some_getD _ (by rw [← dictContains_eq_isSome]; exact h k hk)

/-- C10 witness: reading `x` and `y` from a worker that holds both. -/
theorem C10_witness :
    ((wxy.get_data ["x", "y"]).1.isSome = true) ∧
    dictLookup ((wxy.get_data ["x", "y"]).1.getD []) "x" =
      dictLookup wxy.data "x" ∧
    dictLookup ((wxy.get_data ["x", "y"]).1.getD []) "y" =
      dictLookup wxy.data "y" ∧
    (wxy.get_data ["x", "y"]).2.1 = wxy ∧
    (wxy.get_data ["x", "y"]).2.2 = [] := by
  have hc := C10_get_data_pure wxy ["x", "y"] (by decide)
  exact ⟨hc.1, hc.2.1 "x" (by decide), hc.2.1 "y" (by decide),
    hc.2.2.1, hc.2.2.2⟩

end Distributed3
